import Mathlib

/-!
Verification of the wlearn lightgbm-wasm binding layer.

This file shallowly embeds the JavaScript source of the repository:
* the estimator orchestrator (`LGBModel` class: `fit`, `predict`,
  `predictProba`, `score`, `save`, `#resolveTask`, `#ensureFitted`),
* the module loader (`loadLGB` / `getWasm` in `src/wasm.js`),
* the scratch-buffer allocation/release traces of the `Dataset` and
  `Booster` native wrappers and of `withCString`.

Numbers crossing the sandbox boundary are embedded as `Int` (labels,
handles) and `ℚ` (raw engine predictions: every finite double is a
rational and the decoding logic only performs order comparisons).  The
gradient-boosting engine itself is opaque in the source, so raw engine
outputs appear as unconstrained parameters, and engine-side effects are
recorded as explicit event traces.
-/

namespace LightGBMWasm

/-- The classification objectives (model.js, `CLASSIFIER_OBJECTIVES`). -/
def CLASSIFIER_OBJECTIVES : List String :=
  ["binary", "multiclass", "multiclassova", "cross_entropy"]

/-- The probability-emitting objectives (model.js, `PROBA_OBJECTIVES`). -/
def PROBA_OBJECTIVES : List String :=
  ["binary", "multiclass", "multiclassova"]

/-- The hyperparameter fields of the model that the binding logic reads.
Other keys of the JS params object are irrelevant to control flow and
are not modelled.  `none` means the key is absent. -/
structure Params where
  objective : Option String
  task : Option String
  numRound : Option Int
  num_class : Option Int
deriving DecidableEq, Repr

/-- JS truthiness of an optional string value: absent and the empty
string are falsy. -/
def truthyS : Option String → Bool
  | none => false
  | some s => !(s == "")

/-- JS `o || d` on an optional string (model.js line 325:
`this.#params.objective || 'regression'`). -/
def strOr : Option String → String → String
  | none, d => d
  | some s, d => if s = "" then d else s

/-- JS `this.#params.numRound || 100` (model.js line 358): any falsy
value of the key (absent, or the number 0) falls back to 100. -/
def numRoundOf (p : Params) : Int :=
  match p.numRound with
  | none => 100
  | some n => if n = 0 then 100 else n

/-- The error taxonomy raised by the embedded operations. -/
inductive Err
  | disposed
  | notFitted
  | notLoaded
  | conflictTaskObjective
  | unknownTask (t : String)
  | lengthMismatch
  | probaMismatch (obj : String)
deriving DecidableEq, Repr

/-- The orchestrator state of the JS `LGBModel` class: the private
fields `#booster` (an opaque handle id), `#freed`, `#fitted`,
`#params`, `#nrClass`, `#classes`. -/
structure LGBModel where
  booster : Option Nat
  freed : Bool
  fitted : Bool
  params : Params
  nrClass : Nat
  classes : List Int
deriving DecidableEq, Repr

/-- model.js `#resolveTask` (lines 647-669): maps the `task` shorthand
to a concrete objective.  Mirrors the source: return unchanged when
`task` is falsy; conflict error when `objective` is also truthy;
for `task === 'classification'` count distinct labels (`unique.size`,
embedded as `y.dedup.length`) and pick `multiclass` (setting
`num_class`) when more than 2, else `binary`. -/
def resolveTask (p : Params) (y : List Int) : Except Err Params :=
  if ¬ truthyS p.task then .ok p
  else if truthyS p.objective then .error .conflictTaskObjective
  else if p.task = some "classification" then
    if 2 < y.dedup.length then
      .ok { p with objective := some "multiclass", num_class := some (y.dedup.length : Int) }
    else
      .ok { p with objective := some "binary" }
  else if p.task = some "regression" then
    .ok { p with objective := some "regression" }
  else .error (.unknownTask ((p.task).getD ""))

/-- model.js fit lines 330-338: `[...unique].sort((a, b) => a - b)` --
the ascending sorted list of the distinct label values. -/
def sortedClasses (y : List Int) : List Int :=
  List.insertionSort (· ≤ ·) y.dedup

/-- The engine-side effects performed by `fit`, in program order. -/
inductive Ev
  | disposeBooster (id : Nat)
  | createDataset (id : Nat)
  | setLabel (labels : List Int)
  | createBooster (id : Nat)
  | updateCall (round : Nat)
  | disposeDataset (id : Nat)
deriving DecidableEq, Repr

/-- Engine-provided data for one `fit` call: the opaque handles the
engine would assign to the new Dataset and Booster, and the per-round
early-completion signal returned by `booster.update()` (model.js line
384 calls `update()` and discards this boolean). -/
structure FitEnv where
  newDsId : Nat
  newBoosterId : Nat
  finishedSignal : Nat → Bool

/-- model.js `fit` (lines 307-401), with the engine's own effects
recorded as an event trace.  Steps, in source order: the `#freed`
check; `#resolveTask`; disposal of a previous Booster; objective
resolution with default `regression`; for classifier objectives the
distinct labels are sorted into `#classes` and each label is remapped
to its index (`classMap`); the `y`/`rows` length check; dataset
creation, `setLabel`, booster creation, exactly
`numRound = params.numRound || 100` update calls (the loop
`for (let i = 0; i < numRound; i++) booster.update()` ignores the
returned completion signal), and dataset disposal.  Labels are embedded
as `Int` (the source validates `v === Math.floor(v)` for classifiers,
so classifier labels are integral; the non-integer error path is not
modelled).  Engine call failures are not modelled (claims quantify over
successful fits). -/
def LGBModel.fit (m : LGBModel) (env : FitEnv) (rows : Nat) (y : List Int) :
    Except Err (LGBModel × List Ev) :=
  if m.freed then .error .disposed
  else
    match resolveTask m.params y with
    | .error e => .error e
    | .ok p1 =>
      let disposeEvs : List Ev :=
        match m.booster with
        | some b => [Ev.disposeBooster b]
        | none => []
      let obj := strOr p1.objective "regression"
      let classes : List Int :=
        if CLASSIFIER_OBJECTIVES.contains obj then sortedClasses y else []
      let nrClass : Nat :=
        if CLASSIFIER_OBJECTIVES.contains obj then (sortedClasses y).length else 0
      let yTrain : List Int :=
        if CLASSIFIER_OBJECTIVES.contains obj then
          y.map (fun v => ((sortedClasses y).indexOf v : Int))
        else y
      if yTrain.length ≠ rows then .error .lengthMismatch
      else
        .ok ({ m with
                params := p1
                booster := some env.newBoosterId
                fitted := true
                nrClass := nrClass
                classes := classes },
          disposeEvs ++
            ([Ev.createDataset env.newDsId, Ev.setLabel yTrain,
              Ev.createBooster env.newBoosterId] ++
              (List.range (numRoundOf p1).toNat).map Ev.updateCall ++
              [Ev.disposeDataset env.newDsId]))

/-- Recognizer for `update()` events. -/
def Ev.isUpdate : Ev → Bool
  | .updateCall _ => true
  | _ => false

/-- Number of `booster.update()` invocations recorded in a fit trace. -/
def countUpdates (evs : List Ev) : Nat :=
  evs.countP Ev.isUpdate

/-- model.js `#ensureFitted` (lines 642-645): the disposed check comes
first, then the fitted check. -/
def ensureFitted (m : LGBModel) : Except Err Unit :=
  if m.freed then .error .disposed
  else if ¬ m.fitted then .error .notFitted
  else .ok ()

/-- model.js predict lines 424-428: the inner argmax scan
`for (let c = 1; c < nc; c++) if (raw[base+c] > raw[base+best]) best = c`
starting from `best = 0`.  Out-of-range reads are embedded as the
default 0 (claims only evaluate it on in-range data). -/
def argmaxRow (raw : List ℚ) (base nc : Nat) : Nat :=
  (List.range' 1 (nc - 1)).foldl
    (fun best c => if raw.getD (base + best) 0 < raw.getD (base + c) 0 then c else best) 0

/-- The same scan as `argmaxRow` cut off after the first `m` loop
iterations (`c = 1 .. m`); used to reason about the loop by induction.
`argmaxRow raw base nc` is `argmaxAux raw base (nc - 1)`. -/
def argmaxAux (raw : List ℚ) (base m : Nat) : Nat :=
  (List.range' 1 m).foldl
    (fun best c => if raw.getD (base + best) 0 < raw.getD (base + c) 0 then c else best) 0

/-- model.js predict lines 416-436: decoding of classifier raw output.
`binary` thresholds each row's probability at 0.5 and indexes the class
list with 0 or 1; `multiclass`/`multiclassova` take the first-seen
argmax of the row's `nc` probabilities; the remaining classifier
objective (`cross_entropy`) also thresholds at 0.5.  A JS out-of-range
`Int32Array` read yields `undefined` (stored as NaN), embedded here as
`none` via `List.get?`. -/
def decodeCls (obj : String) (classes : List Int) (nc rows : Nat) (raw : List ℚ) :
    List (Option Int) :=
  if obj = "binary" then
    (List.range rows).map (fun i => classes.get? (if (1 : ℚ)/2 < raw.getD i 0 then 1 else 0))
  else if obj = "multiclass" ∨ obj = "multiclassova" then
    (List.range rows).map (fun i => classes.get? (argmaxRow raw (i * nc) nc))
  else
    (List.range rows).map (fun i => classes.get? (if (1 : ℚ)/2 < raw.getD i 0 then 1 else 0))

/-- Modelled from the spec's wording for the multiclass decode: `b` is
the index of the maximum value among the row's `nc` probabilities
starting at `base`, with ties broken by the lowest index
(first-seen-wins). -/
def FirstMaxIndex (raw : List ℚ) (base nc b : Nat) : Prop :=
  b < nc ∧
    (∀ c, c < nc → raw.getD (base + c) 0 ≤ raw.getD (base + b) 0) ∧
    (∀ c, c < b → raw.getD (base + c) 0 < raw.getD (base + b) 0)

/-- The result of `predict`: raw engine output passed through unchanged
for non-classifier objectives, decoded labels for classifiers. -/
inductive PredOut
  | raw (xs : List ℚ)
  | labels (xs : List (Option Int))
deriving DecidableEq, Repr

/-- model.js predict lines 408-438: non-classifier objectives return
the raw prediction unchanged; classifier objectives decode it. -/
def predictDecode (obj : String) (classes : List Int) (nc rows : Nat) (raw : List ℚ) :
    PredOut :=
  if CLASSIFIER_OBJECTIVES.contains obj then
    .labels (decodeCls obj classes nc rows raw)
  else
    .raw raw

/-- model.js `predict` (lines 403-439): `#ensureFitted`, then decode
the raw engine output `raw` (the opaque engine's answer for the
caller's `rows` prediction rows). -/
def LGBModel.predict (m : LGBModel) (rows : Nat) (raw : List ℚ) :
    Except Err PredOut :=
  match ensureFitted m with
  | .error e => .error e
  | .ok _ =>
    .ok (predictDecode (strOr m.params.objective "regression") m.classes m.nrClass rows raw)

/-- model.js `predictProba` (lines 441-465): `#ensureFitted`, objective
check against `PROBA_OBJECTIVES`, then for `binary` each row's raw
probability `p` is expanded to `[1 - p, p]`; the multiclass variants
return the raw row-major probabilities as they are. -/
def LGBModel.predictProba (m : LGBModel) (rows : Nat) (raw : List ℚ) :
    Except Err (List ℚ) :=
  match ensureFitted m with
  | .error e => .error e
  | .ok _ =>
    let obj := strOr m.params.objective "regression"
    if ¬ PROBA_OBJECTIVES.contains obj then .error (.probaMismatch obj)
    else if obj = "binary" then
      .ok ((List.range rows).flatMap (fun i => [1 - raw.getD i 0, raw.getD i 0]))
    else .ok raw

/-- model.js score lines 472-480: coefficient of determination; the
`ssTot === 0` guard returns 0.  Indexing is embedded with default 0
(matches the source when `preds` covers `y`). -/
def rSquared (preds : List ℚ) (y : List ℚ) : ℚ :=
  let yMean := y.sum / (y.length : ℚ)
  let ssRes := ((List.range y.length).map
    (fun i => (y.getD i 0 - preds.getD i 0) ^ 2)).sum
  let ssTot := ((List.range y.length).map
    (fun i => (y.getD i 0 - yMean) ^ 2)).sum
  if ssTot = 0 then 0 else 1 - ssRes / ssTot

/-- model.js score lines 484-488: fraction of exact matches over the
prediction list; a NaN prediction (JS `undefined` class read, here
`none`) matches nothing. -/
def accuracy (preds : List (Option Int)) (y : List ℚ) : ℚ :=
  let correct := (List.range preds.length).countP (fun i =>
    match preds.getD i none, y[i]? with
    | some c, some v => decide ((c : ℚ) = v)
    | _, _ => false)
  (correct : ℚ) / (preds.length : ℚ)

/-- model.js `score` (lines 467-489): delegates to `predict` (so its
lifecycle errors propagate), then computes R² for regression output and
accuracy for classifier output (the source branches on
`#isClassifier()`, which coincides with the shape of the decoded
output). -/
def LGBModel.score (m : LGBModel) (rows : Nat) (raw : List ℚ) (y : List ℚ) :
    Except Err ℚ :=
  match LGBModel.predict m rows raw with
  | .error e => .error e
  | .ok (.raw xs) => .ok (rSquared xs y)
  | .ok (.labels ls) => .ok (accuracy ls y)

/-- The manifest produced by `save` (model.js lines 493-511). -/
structure Bundle where
  typeId : String
  params : Params
  nrClass : Nat
  classes : List Int
  objective : String
deriving DecidableEq, Repr

/-- model.js `save` (lines 493-511): `#ensureFitted`, then a bundle
with classifier/regressor type discriminator and metadata. -/
def LGBModel.save (m : LGBModel) : Except Err Bundle :=
  match ensureFitted m with
  | .error e => .error e
  | .ok _ =>
    .ok { typeId :=
            if CLASSIFIER_OBJECTIVES.contains (strOr m.params.objective "regression") then
              "wlearn.lightgbm.classifier@1"
            else
              "wlearn.lightgbm.regressor@1"
          params := m.params
          nrClass := m.nrClass
          classes := m.classes
          objective := strOr m.params.objective "regression" }

/-! ## Module loader (src/wasm.js) -/

/-- The two module-level variables of src/wasm.js: `wasmModule` (the
engine instance, by id) and `loading` (the single in-flight promise, by
id). -/
structure LoaderState where
  wasmModule : Option Nat
  loading : Option Nat
deriving DecidableEq, Repr

/-- What one `loadLGB()` call hands back: the already-available
instance, or a promise. -/
inductive LResult
  | resolved (inst : Nat)
  | pending (promise : Nat)
deriving DecidableEq, Repr

/-- src/wasm.js `loadLGB` (lines 8-22): return `wasmModule` when set;
return the in-flight `loading` promise when set; otherwise start the
initialization, storing a fresh promise in `loading`. -/
def loadLGB (s : LoaderState) (freshP : Nat) : LoaderState × LResult :=
  match s.wasmModule with
  | some w => (s, .resolved w)
  | none =>
    match s.loading with
    | some p => (s, .pending p)
    | none => ({ s with loading := some freshP }, .pending freshP)

/-- Completion of the initialization body (src/wasm.js line 17:
`wasmModule = await createLightGBM(options)`).  The body exists only
for the one promise stored in `loading` and runs once, so completion
takes effect exactly when an initialization is in flight; the returned
flag records whether an engine instance was actually produced. -/
def completeLoad (s : LoaderState) (inst : Nat) : LoaderState × Bool :=
  match s.loading, s.wasmModule with
  | some _, none => ({ s with wasmModule := some inst }, true)
  | _, _ => (s, false)

/-- src/wasm.js `getWasm` (lines 24-27): throws the not-loaded error
exactly when `wasmModule` is still null. -/
def getWasm (s : LoaderState) : Except Err Nat :=
  match s.wasmModule with
  | none => .error .notLoaded
  | some w => .ok w

/-- One interleaving step of the process: a `loadLGB()` call (with the
promise id the runtime would mint if a new one is needed), or the
completion of the engine initialization producing instance `inst`. -/
inductive LStep
  | call (freshP : Nat)
  | complete (inst : Nat)
deriving DecidableEq, Repr

/-- Accumulated run: loader state, the results handed to each caller in
order, and the engine instances actually created. -/
structure RunAcc where
  st : LoaderState
  results : List LResult
  created : List Nat
deriving DecidableEq, Repr

/-- Apply one step of a loader run. -/
def runStep (a : RunAcc) (e : LStep) : RunAcc :=
  match e with
  | .call p =>
    { a with st := (loadLGB a.st p).1, results := a.results ++ [(loadLGB a.st p).2] }
  | .complete i =>
    { a with
      st := (completeLoad a.st i).1
      created := if (completeLoad a.st i).2 then a.created ++ [i] else a.created }

/-- Run a whole interleaving from the initial state (both module-level
variables null). -/
def runLoader (steps : List LStep) : RunAcc :=
  steps.foldl runStep ⟨⟨none, none⟩, [], []⟩

/-- The engine instance a caller's result ultimately resolves to: a
resolved result is its instance; a pending result resolves to whatever
the promise stored in `loading` produced (the final `wasmModule`), and
to nothing if it is not that promise or the load never completed. -/
def finalValue (s : LoaderState) (r : LResult) : Option Nat :=
  match r with
  | .resolved w => some w
  | .pending p => if s.loading = some p then s.wasmModule else none

/-- Invariant of every loader run: once `wasmModule` is set, `created`
is exactly that one instance (and is empty before); every resolved
result carries the stored instance and every pending result references
the single in-flight promise stored in `loading`. -/
def LoaderInv (a : RunAcc) : Prop :=
  (a.st.wasmModule = none → a.created = []) ∧
  (∀ w, a.st.wasmModule = some w → a.created = [w]) ∧
  (∀ r ∈ a.results,
    (∀ w, r = LResult.resolved w → a.st.wasmModule = some w) ∧
    (∀ p, r = LResult.pending p → a.st.loading = some p))

/-! ## Scratch sandbox allocations (dataset.js, booster.js) -/

/-- One sandbox heap event: `_malloc` or `_free` of a scratch buffer,
identified by its position in the operation's allocation order. -/
inductive MemEvent
  | alloc (id : Nat)
  | free (id : Nat)
deriving DecidableEq, Repr

/-- Replay a memory-event trace against the set of live scratch
allocations: double allocation, double free, and free of a dead buffer
are faults (`none`). -/
def runMem (evs : List MemEvent) : Option (List Nat) :=
  evs.foldl (fun acc e =>
    acc.bind (fun live =>
      match e with
      | .alloc i => if i ∈ live then none else some (i :: live)
      | .free i => if i ∈ live then some (live.erase i) else none))
    (some [])

/-- A trace is scratch-safe when it replays without faults and leaves
the live-allocation set exactly as it found it. -/
def ScratchSafe (evs : List MemEvent) : Prop :=
  runMem evs = some []

/-- `withCString` (booster.js lines 13-22 and dataset.js lines
693-702): allocate, run, free in `finally`. -/
def withCStringEvs : List MemEvent :=
  [.alloc 0, .free 0]

/-- Dataset constructor (dataset.js lines 713-746): 0 = matrix buffer,
1 = out-handle word, 2 = params C string; on nonzero status both
buffers are freed before throwing, on success both are freed after the
handle is read. -/
def datasetCreateEvs (ok : Bool) : List MemEvent :=
  [.alloc 0, .alloc 1, .alloc 2, .free 2] ++
    (if ok then [.free 0, .free 1] else [.free 0, .free 1])

/-- `Dataset.setLabel` (dataset.js lines 753-769): 0 = label buffer,
1 = field-name C string; the label buffer is freed before the status
check, so both paths see the same releases. -/
def setLabelEvs (ok : Bool) : List MemEvent :=
  [.alloc 0, .alloc 1, .free 1, .free 0] ++ (if ok then [] else [])

/-- Booster constructor, train-new path (booster.js lines 51-64):
0 = out-handle word, 1 = params C string. -/
def boosterCreateEvs (ok : Bool) : List MemEvent :=
  [.alloc 0, .alloc 1, .free 1] ++ (if ok then [.free 0] else [.free 0])

/-- `Booster.update` (booster.js lines 81-94): 0 = finished-flag word,
freed before the status check. -/
def updateEvs (ok : Bool) : List MemEvent :=
  [.alloc 0, .free 0] ++ (if ok then [] else [])

/-- `Booster.getNumClasses` (booster.js lines 96-108). -/
def getNumClassesEvs (ok : Bool) : List MemEvent :=
  [.alloc 0, .free 0] ++ (if ok then [] else [])

/-- `Booster.predict` (booster.js lines 110-152): 0 = matrix buffer,
1 = out-length word, 2 = output buffer, 3 = empty-params C string; the
matrix buffer is freed right after the call, the remaining two on both
the failure and the success path. -/
def boosterPredictEvs (ok : Bool) : List MemEvent :=
  [.alloc 0, .alloc 1, .alloc 2, .alloc 3, .free 3, .free 0] ++
    (if ok then [.free 1, .free 2] else [.free 1, .free 2])

/-- `Booster.saveModel` (booster.js lines 154-187), two-pass protocol:
0 = out-length word (both passes), 1 = model text buffer; each pass
releases everything allocated so far on failure. -/
def saveModelEvs (ok1 ok2 : Bool) : List MemEvent :=
  [.alloc 0] ++
    (if ok1 then
      [.alloc 1] ++ (if ok2 then [.free 0, .free 1] else [.free 0, .free 1])
    else [.free 0])

/-- `Booster.loadModel` (booster.js lines 189-215): 0 = model text
buffer, 1 = out-iteration word, 2 = out-handle word; the first two are
freed right after the call, the handle word on both paths. -/
def loadModelEvs (ok : Bool) : List MemEvent :=
  [.alloc 0, .alloc 1, .alloc 2, .free 0, .free 1] ++
    (if ok then [.free 2] else [.free 2])

/-! ## Helper lemmas -/

theorem sortedClasses_mem {y : List Int} {v : Int} : v ∈ sortedClasses y ↔ v ∈ y := by
  unfold sortedClasses
  rw [(List.perm_insertionSort _ _).mem_iff]
  exact List.mem_dedup

theorem sortedClasses_nodup (y : List Int) : (sortedClasses y).Nodup :=
  ((List.perm_insertionSort _ _).nodup_iff).mpr y.nodup_dedup

theorem sortedClasses_sorted (y : List Int) : List.Sorted (· < ·) (sortedClasses y) :=
  List.Sorted.lt_of_le (List.sorted_insertionSort _ _) (sortedClasses_nodup y)

theorem sortedClasses_length_pos {y : List Int} (h : y ≠ []) :
    0 < (sortedClasses y).length := by
  rcases List.exists_mem_of_ne_nil y h with ⟨a, ha⟩
  exact List.length_pos.mpr (List.ne_nil_of_mem (sortedClasses_mem.mpr ha))

theorem argmaxRow_eq_aux (raw : List ℚ) (base nc : Nat) :
    argmaxRow raw base nc = argmaxAux raw base (nc - 1) := rfl

theorem argmaxAux_spec (raw : List ℚ) (base : Nat) : ∀ m : Nat,
    argmaxAux raw base m ≤ m ∧
    (∀ c, c ≤ m → raw.getD (base + c) 0 ≤ raw.getD (base + argmaxAux raw base m) 0) ∧
    (∀ c, c < argmaxAux raw base m →
      raw.getD (base + c) 0 < raw.getD (base + argmaxAux raw base m) 0)
  | 0 => by
    refine ⟨le_rfl, ?_, ?_⟩
    · intro c hc
      interval_cases c
      simp [argmaxAux]
    · intro c hc
      simp [argmaxAux] at hc
  | m + 1 => by
    obtain ⟨ih1, ih2, ih3⟩ := argmaxAux_spec raw base m
    have hstep : argmaxAux raw base (m + 1) =
        if raw.getD (base + argmaxAux raw base m) 0 < raw.getD (base + (m + 1)) 0
        then m + 1 else argmaxAux raw base m := by
      unfold argmaxAux
      rw [List.range'_concat, List.foldl_append]
      simp [Nat.add_comm 1 m]
    by_cases hlt : raw.getD (base + argmaxAux raw base m) 0 < raw.getD (base + (m + 1)) 0
    · rw [hstep, if_pos hlt]
      refine ⟨le_rfl, ?_, ?_⟩
      · intro c hc
        rcases Nat.lt_or_ge c (m + 1) with h | h
        · exact le_of_lt (lt_of_le_of_lt (ih2 c (Nat.lt_succ_iff.mp h)) hlt)
        · have : c = m + 1 := le_antisymm hc h
          simp [this]
      · intro c hc
        exact lt_of_le_of_lt (ih2 c (Nat.lt_succ_iff.mp hc)) hlt
    · rw [hstep, if_neg hlt]
      refine ⟨le_trans ih1 (Nat.le_succ m), ?_, ih3⟩
      intro c hc
      rcases Nat.lt_or_ge c (m + 1) with h | h
      · exact ih2 c (Nat.lt_succ_iff.mp h)
      · have : c = m + 1 := le_antisymm hc h
        subst this
        exact le_of_not_lt hlt

theorem argmaxRow_firstMax (raw : List ℚ) (base nc : Nat) (h : 1 ≤ nc) :
    FirstMaxIndex raw base nc (argmaxRow raw base nc) := by
  obtain ⟨h1, h2, h3⟩ := argmaxAux_spec raw base (nc - 1)
  rw [argmaxRow_eq_aux]
  refine ⟨lt_of_le_of_lt h1 (Nat.sub_lt h Nat.one_pos), ?_, h3⟩
  intro c hc
  exact h2 c (Nat.le_sub_one_of_lt hc)

theorem resolveTask_fields {p : Params} {y : List Int} {p1 : Params}
    (h : resolveTask p y = .ok p1) :
    p1.numRound = p.numRound ∧ p1.task = p.task := by
  unfold resolveTask at h
  split at h
  · cases h; exact ⟨rfl, rfl⟩
  · split at h
    · exact absurd h (by simp)
    · split at h
      · split at h <;> (cases h; exact ⟨rfl, rfl⟩)
      · split at h
        · cases h; exact ⟨rfl, rfl⟩
        · exact absurd h (by simp)

/-- Inversion principle for a successful `fit`: recovers the source's
intermediate values and the exact event trace. -/
theorem fit_ok_elim {m : LGBModel} {env : FitEnv} {rows : Nat} {y : List Int}
    {m' : LGBModel} {evs : List Ev}
    (h : LGBModel.fit m env rows y = .ok (m', evs)) :
    ∃ p1, m.freed = false ∧ resolveTask m.params y = .ok p1 ∧
      m' = { m with
              params := p1
              booster := some env.newBoosterId
              fitted := true
              nrClass :=
                if CLASSIFIER_OBJECTIVES.contains (strOr p1.objective "regression") then
                  (sortedClasses y).length
                else 0
              classes :=
                if CLASSIFIER_OBJECTIVES.contains (strOr p1.objective "regression") then
                  sortedClasses y
                else [] } ∧
      evs = (match m.booster with
             | some b => [Ev.disposeBooster b]
             | none => []) ++
            ([Ev.createDataset env.newDsId,
              Ev.setLabel
                (if CLASSIFIER_OBJECTIVES.contains (strOr p1.objective "regression") then
                  y.map (fun v => ((sortedClasses y).indexOf v : Int))
                else y),
              Ev.createBooster env.newBoosterId] ++
              (List.range (numRoundOf p1).toNat).map Ev.updateCall ++
              [Ev.disposeDataset env.newDsId]) ∧
      (if CLASSIFIER_OBJECTIVES.contains (strOr p1.objective "regression") then
        y.map (fun v => ((sortedClasses y).indexOf v : Int))
      else y).length = rows := by
  unfold LGBModel.fit at h
  split at h
  · exact absurd h (by simp)
  · rename_i hf
    split at h
    · exact absurd h (by simp)
    · rename_i p1 hr
      refine ⟨p1, by simpa using hf, hr, ?_⟩
      rcases hb : m.booster with _ | b <;>
        by_cases hc : CLASSIFIER_OBJECTIVES.contains (strOr p1.objective "regression") = true <;>
        simp only [hb, hc, Bool.not_eq_true, if_true, if_false, Bool.false_eq_true,
          List.nil_append] at h ⊢ <;>
        (split at h
         · exact absurd h (by simp)
         · rename_i hlen
           simp only [Except.ok.injEq, Prod.mk.injEq] at h
           exact ⟨h.1.symm, h.2.symm, by simpa using hlen⟩)

theorem countUpdates_fit {m : LGBModel} {env : FitEnv} {rows : Nat} {y : List Int}
    {m' : LGBModel} {evs : List Ev}
    (h : LGBModel.fit m env rows y = .ok (m', evs)) :
    countUpdates evs = (numRoundOf m.params).toNat := by
  obtain ⟨p1, hf, hr, _, he, _⟩ := fit_ok_elim h
  have hnr : p1.numRound = m.params.numRound := (resolveTask_fields hr).1
  have hgen : ∀ (devs : List Ev), (∀ e ∈ devs, e.isUpdate = false) →
      ∀ (yT : List Int) (k d1 b1 d2 : Nat),
      countUpdates (devs ++ ([Ev.createDataset d1, Ev.setLabel yT, Ev.createBooster b1] ++
        (List.range k).map Ev.updateCall ++ [Ev.disposeDataset d2])) = k := by
    intro devs hdevs yT k d1 b1 d2
    unfold countUpdates
    rw [List.countP_append, List.countP_append, List.countP_append]
    have h1 : devs.countP Ev.isUpdate = 0 :=
      List.countP_eq_zero.mpr (by simpa using hdevs)
    have h2 : ((List.range k).map Ev.updateCall).countP Ev.isUpdate = k := by
      rw [List.countP_eq_length.mpr]
      · simp
      · intro a ha
        rcases List.mem_map.mp ha with ⟨r, _, rfl⟩
        rfl
    simp [h1, h2, List.countP_cons, Ev.isUpdate]
  have hnum : numRoundOf p1 = numRoundOf m.params := by
    unfold numRoundOf
    rw [hnr]
  subst he
  rw [← hnum]
  cases hb : m.booster with
  | none => exact hgen [] (by simp) _ _ _ _ _
  | some b => exact hgen [Ev.disposeBooster b] (by simp [Ev.isUpdate]) _ _ _ _ _

/-- C2: on every successful `fit`, `booster.update()` is invoked exactly
`numRound` times (100 when the `numRound` hyperparameter is absent),
and the early-completion signal returned by `update()` has no influence
on the loop: `fit` is invariant under any completion-signal function. -/
theorem c2_round_budget (m : LGBModel) (env : FitEnv) (rows : Nat) (y : List Int)
    (m' : LGBModel) (evs : List Ev)
    (hfit : LGBModel.fit m env rows y = .ok (m', evs)) :
    countUpdates evs = (numRoundOf m.params).toNat ∧
    (m.params.numRound = none → countUpdates evs = 100) ∧
    (∀ n : Int, m.params.numRound = some n → 0 < n → (countUpdates evs : Int) = n) ∧
    (∀ f : Nat → Bool,
      LGBModel.fit m ⟨env.newDsId, env.newBoosterId, f⟩ rows y = .ok (m', evs)) := by
  have hcount := countUpdates_fit hfit
  refine ⟨hcount, ?_, ?_, ?_⟩
  · intro hnone
    rw [hcount]
    simp [numRoundOf, hnone]
  · intro n hn hpos
    rw [hcount]
    simp only [numRoundOf, hn]
    rw [if_neg (by omega)]
    omega
  · intro f
    cases env
    exact hfit

/-- C2 witness: a concrete fit with `numRound = 2` performs exactly two
update calls. -/
theorem c2_round_budget_witness :
    countUpdates [Ev.createDataset 0, Ev.setLabel [0, 0, 1, 1], Ev.createBooster 1,
      Ev.updateCall 0, Ev.updateCall 1, Ev.disposeDataset 0] = 2 := by
  have h := c2_round_budget ⟨none, false, false, ⟨some "binary", none, some 2, none⟩, 0, []⟩
    ⟨0, 1, fun _ => false⟩ 4 [3, 3, 7, 7]
    ⟨some 1, false, true, ⟨some "binary", none, some 2, none⟩, 2, [3, 7]⟩
    [Ev.createDataset 0, Ev.setLabel [0, 0, 1, 1], Ev.createBooster 1,
      Ev.updateCall 0, Ev.updateCall 1, Ev.disposeDataset 0]
    rfl
  exact h.1.trans (by decide)

/-- C10: when `numRound` is explicitly set to the falsy value 0, `fit`
still performs the default 100 update calls: `params.numRound || 100`
treats every falsy value like an absent key. -/
theorem c10_numRound_falsy (m : LGBModel) (env : FitEnv) (rows : Nat) (y : List Int)
    (m' : LGBModel) (evs : List Ev)
    (h0 : m.params.numRound = some 0)
    (hfit : LGBModel.fit m env rows y = .ok (m', evs)) :
    countUpdates evs = 100 ∧ numRoundOf m.params = 100 := by
  have hcount := countUpdates_fit hfit
  have h100 : numRoundOf m.params = 100 := by
    unfold numRoundOf
    rw [h0]
    simp
  refine ⟨?_, h100⟩
  rw [hcount, h100]
  rfl

/-- C10 witness: a concrete fit with `numRound = 0` records 100 update
calls. -/
theorem c10_numRound_falsy_witness :
    countUpdates ([Ev.createDataset 0, Ev.setLabel [1, 2], Ev.createBooster 1] ++
      (List.range 100).map Ev.updateCall ++ [Ev.disposeDataset 0]) = 100 ∧
    numRoundOf ⟨none, none, some 0, none⟩ = 100 := by
  have h := c10_numRound_falsy ⟨none, false, false, ⟨none, none, some 0, none⟩, 0, []⟩
    ⟨0, 1, fun _ => false⟩ 2 [1, 2]
    ⟨some 1, false, true, ⟨none, none, some 0, none⟩, 0, []⟩
    ([Ev.createDataset 0, Ev.setLabel [1, 2], Ev.createBooster 1] ++
      (List.range 100).map Ev.updateCall ++ [Ev.disposeDataset 0])
    rfl rfl
  exact h

/-- C3: calling `fit` on an already-fitted, non-disposed model first
disposes the previously held booster -- the disposal is the first
recorded engine effect, it happens exactly once, and the new booster is
created only afterwards -- and the call completes with the model back
in the fitted state holding the newly trained booster. -/
theorem c3_refit_disposes (m : LGBModel) (env : FitEnv) (rows : Nat) (y : List Int)
    (m' : LGBModel) (evs : List Ev) (b : Nat)
    (hb : m.booster = some b)
    (hfit : LGBModel.fit m env rows y = .ok (m', evs)) :
    (∃ tail, evs = Ev.disposeBooster b :: tail ∧
      Ev.createBooster env.newBoosterId ∈ tail ∧
      Ev.disposeBooster b ∉ tail) ∧
    m'.booster = some env.newBoosterId ∧
    m'.fitted = true ∧
    m'.freed = false := by
  obtain ⟨p1, hf, hr, hm, he, _⟩ := fit_ok_elim hfit
  rw [hb] at he
  subst hm
  subst he
  refine ⟨⟨_, rfl, ?_, ?_⟩, rfl, rfl, hf⟩
  · simp
  · simp

/-- C3 witness: a concrete refit of a fitted binary model holding
booster 5. -/
theorem c3_refit_disposes_witness :
    (∃ tail, [Ev.disposeBooster 5, Ev.createDataset 0, Ev.setLabel [0, 1],
        Ev.createBooster 1, Ev.updateCall 0, Ev.disposeDataset 0] =
        Ev.disposeBooster 5 :: tail ∧
      Ev.createBooster 1 ∈ tail ∧
      Ev.disposeBooster 5 ∉ tail) ∧
    (⟨some 1, false, true, ⟨some "binary", none, some 1, none⟩, 2, [3, 7]⟩ :
      LGBModel).booster = some 1 ∧
    (⟨some 1, false, true, ⟨some "binary", none, some 1, none⟩, 2, [3, 7]⟩ :
      LGBModel).fitted = true ∧
    (⟨some 1, false, true, ⟨some "binary", none, some 1, none⟩, 2, [3, 7]⟩ :
      LGBModel).freed = false :=
  c3_refit_disposes
    ⟨some 5, false, true, ⟨some "binary", none, some 1, none⟩, 2, [3, 7]⟩
    ⟨0, 1, fun _ => false⟩ 2 [3, 7]
    ⟨some 1, false, true, ⟨some "binary", none, some 1, none⟩, 2, [3, 7]⟩
    [Ev.disposeBooster 5, Ev.createDataset 0, Ev.setLabel [0, 1],
      Ev.createBooster 1, Ev.updateCall 0, Ev.disposeDataset 0]
    5 rfl rfl

theorem resolveTask_classification {p : Params} {y : List Int}
    (htask : p.task = some "classification") (hobj : truthyS p.objective = false) :
    resolveTask p y = .ok
      (if 2 < y.dedup.length then
        { p with objective := some "multiclass", num_class := some (y.dedup.length : Int) }
      else { p with objective := some "binary" }) := by
  unfold resolveTask
  rw [htask]
  simp [hobj, show truthyS (some "classification") = true from rfl]
  split <;> rfl

theorem resolveTask_conflict {p : Params} {y : List Int}
    (ht : truthyS p.task = true) (ho : truthyS p.objective = true) :
    resolveTask p y = .error .conflictTaskObjective := by
  unfold resolveTask
  rw [ht, ho]
  simp

theorem fit_error_of_conflict {m : LGBModel} (hf : m.freed = false)
    (ht : truthyS m.params.task = true) (ho : truthyS m.params.objective = true) :
    ∀ (env2 : FitEnv) (rows2 : Nat) (y2 : List Int),
      LGBModel.fit m env2 rows2 y2 = .error .conflictTaskObjective := by
  intro env2 rows2 y2
  unfold LGBModel.fit
  rw [hf, resolveTask_conflict ht ho]
  simp

/-- Inversion of `#resolveTask` on its success paths when the `task`
shorthand is truthy and no truthy objective is set: the task key is
preserved, a truthy objective is written, the `classification` branch
resolves to `multiclass`/`binary` (setting `num_class` past two
distinct labels), and the `regression` branch resolves to
`regression`. -/
theorem resolveTask_truthy_ok {p : Params} {y : List Int} {p1 : Params}
    (htask : truthyS p.task = true) (hobj : truthyS p.objective = false)
    (h : resolveTask p y = .ok p1) :
    p1.task = p.task ∧ truthyS p1.objective = true ∧
    (p.task = some "classification" →
      p1.objective = some (if 2 < y.dedup.length then "multiclass" else "binary") ∧
      (2 < y.dedup.length → p1.num_class = some (y.dedup.length : Int))) ∧
    (p.task = some "regression" → p1.objective = some "regression") := by
  unfold resolveTask at h
  rw [htask, hobj] at h
  simp only [not_true, Bool.false_eq_true, if_false] at h
  split at h
  · rename_i hcls
    split at h
    · rename_i hn
      cases h
      refine ⟨rfl, rfl, fun _ => ⟨by rw [if_pos hn], fun _ => rfl⟩, fun hreg => ?_⟩
      rw [hcls] at hreg
      exact absurd hreg (by decide)
    · rename_i hn
      cases h
      refine ⟨rfl, rfl, fun _ => ⟨by rw [if_neg hn], fun h2 => absurd h2 hn⟩, fun hreg => ?_⟩
      rw [hcls] at hreg
      exact absurd hreg (by decide)
  · rename_i hncls
    split at h
    · cases h
      exact ⟨rfl, rfl, fun hcls => absurd hcls hncls, fun _ => rfl⟩
    · exact absurd h (by simp)

/-- C9: a successful fit driven by the `task` shorthand (any truthy
task value, so both `classification` and `regression`) with no truthy
explicit objective writes the resolved objective into the model's
params -- `multiclass`/`binary` plus `num_class` past two distinct
labels for `classification`, `regression` for `regression` -- while
retaining the `task` key, so every subsequent `fit` on that model fails
with the conflicting task/objective error. -/
theorem c9_task_persist (m : LGBModel) (env : FitEnv) (rows : Nat) (y : List Int)
    (m' : LGBModel) (evs : List Ev)
    (htask : truthyS m.params.task = true)
    (hobj : truthyS m.params.objective = false)
    (hfit : LGBModel.fit m env rows y = .ok (m', evs)) :
    m'.params.task = m.params.task ∧
    truthyS m'.params.objective = true ∧
    (m.params.task = some "classification" →
      m'.params.objective = some (if 2 < y.dedup.length then "multiclass" else "binary") ∧
      (2 < y.dedup.length → m'.params.num_class = some (y.dedup.length : Int))) ∧
    (m.params.task = some "regression" → m'.params.objective = some "regression") ∧
    (∀ (env2 : FitEnv) (rows2 : Nat) (y2 : List Int),
      LGBModel.fit m' env2 rows2 y2 = .error Err.conflictTaskObjective) := by
  obtain ⟨p1, hf, hr, hm, _, _⟩ := fit_ok_elim hfit
  obtain ⟨ht1, ht2, ht3, ht4⟩ := resolveTask_truthy_ok htask hobj hr
  subst hm
  refine ⟨ht1, ht2, ht3, ht4, ?_⟩
  refine fit_error_of_conflict hf ?_ ht2
  show truthyS p1.task = true
  rw [ht1]
  exact htask

/-- C9 witness: one fit driven by `task = classification` (resolving to
`binary`) and one driven by `task = regression` (resolving to
`regression`); in both cases the resolved objective is truthy in the
stored params and a second fit fails with the conflict error. -/
theorem c9_task_persist_witness :
    (⟨some 1, false, true, ⟨some "binary", some "classification", none, none⟩, 2, [0, 1]⟩ :
      LGBModel).params.task = some "classification" ∧
    LGBModel.fit
      ⟨some 1, false, true, ⟨some "binary", some "classification", none, none⟩, 2, [0, 1]⟩
      ⟨7, 8, fun _ => true⟩ 2 [0, 1] = .error Err.conflictTaskObjective ∧
    (⟨some 1, false, true, ⟨some "regression", some "regression", none, none⟩, 0, []⟩ :
      LGBModel).params.objective = some "regression" ∧
    LGBModel.fit
      ⟨some 1, false, true, ⟨some "regression", some "regression", none, none⟩, 0, []⟩
      ⟨7, 8, fun _ => true⟩ 2 [1, 2] = .error Err.conflictTaskObjective := by
  have h := c9_task_persist
    ⟨none, false, false, ⟨none, some "classification", none, none⟩, 0, []⟩
    ⟨0, 1, fun _ => false⟩ 2 [0, 1]
    ⟨some 1, false, true, ⟨some "binary", some "classification", none, none⟩, 2, [0, 1]⟩
    ([Ev.createDataset 0, Ev.setLabel [0, 1], Ev.createBooster 1] ++
      (List.range 100).map Ev.updateCall ++ [Ev.disposeDataset 0])
    rfl rfl rfl
  have h2 := c9_task_persist
    ⟨none, false, false, ⟨none, some "regression", none, none⟩, 0, []⟩
    ⟨0, 1, fun _ => false⟩ 2 [1, 2]
    ⟨some 1, false, true, ⟨some "regression", some "regression", none, none⟩, 0, []⟩
    ([Ev.createDataset 0, Ev.setLabel [1, 2], Ev.createBooster 1] ++
      (List.range 100).map Ev.updateCall ++ [Ev.disposeDataset 0])
    rfl rfl rfl
  exact ⟨h.1, h.2.2.2.2 ⟨7, 8, fun _ => true⟩ 2 [0, 1],
    h2.2.2.2.1 rfl, h2.2.2.2.2 ⟨7, 8, fun _ => true⟩ 2 [1, 2]⟩

theorem decodeCls_mem (obj : String) (classes : List Int) (nc rows : Nat) (raw : List ℚ)
    (hn : nc = classes.length)
    (hpos : 0 < classes.length)
    (h2 : ¬(obj = "multiclass" ∨ obj = "multiclassova") → 2 ≤ classes.length) :
    ∀ o ∈ decodeCls obj classes nc rows raw, ∃ c, o = some c ∧ c ∈ classes := by
  intro o ho
  unfold decodeCls at ho
  split at ho
  · rename_i hobj
    rcases List.mem_map.mp ho with ⟨i, _, rfl⟩
    have hlen : (if (1 : ℚ)/2 < raw.getD i 0 then 1 else 0) < classes.length := by
      have := h2 (by rw [hobj]; decide)
      split <;> omega
    rcases List.get?_eq_get hlen with hg
    exact ⟨_, hg, List.get?_mem hg⟩
  · rename_i hobj1
    split at ho
    · rcases List.mem_map.mp ho with ⟨i, _, rfl⟩
      have hlt : argmaxRow raw (i * nc) nc < classes.length := by
        have := (argmaxRow_firstMax raw (i * nc) nc (by omega)).1
        omega
      rcases List.get?_eq_get hlt with hg
      exact ⟨_, hg, List.get?_mem hg⟩
    · rename_i hobj2
      rcases List.mem_map.mp ho with ⟨i, _, rfl⟩
      have hlen : (if (1 : ℚ)/2 < raw.getD i 0 then 1 else 0) < classes.length := by
        have := h2 hobj2
        split <;> omega
      rcases List.get?_eq_get hlen with hg
      exact ⟨_, hg, List.get?_mem hg⟩

/-- C1: for a successful fit under a classification objective, the
stored class list equals the ascending sorted list of distinct label
values of `y`, the label vector handed to the engine remaps each label
to its 0-based position in that list, and -- given at least two
distinct labels for the threshold-decoded objectives (`binary`,
`cross_entropy`) and a nonempty `y` -- every label `predict` produces
is an element of the stored class list, whatever raw output the opaque
engine returns. -/
theorem c1_classes_and_predict (m : LGBModel) (env : FitEnv) (rows : Nat) (y : List Int)
    (m' : LGBModel) (evs : List Ev)
    (hfit : LGBModel.fit m env rows y = .ok (m', evs))
    (hcls : CLASSIFIER_OBJECTIVES.contains (strOr m'.params.objective "regression") = true)
    (hy : y ≠ [])
    (hbin : strOr m'.params.objective "regression" = "binary" ∨
        strOr m'.params.objective "regression" = "cross_entropy" →
        2 ≤ (sortedClasses y).length) :
    m'.classes = sortedClasses y ∧
    List.Sorted (· < ·) m'.classes ∧
    (∀ v : Int, v ∈ m'.classes ↔ v ∈ y) ∧
    m'.nrClass = m'.classes.length ∧
    Ev.setLabel (y.map (fun v => ((sortedClasses y).indexOf v : Int))) ∈ evs ∧
    (∀ (r : Nat) (raw : List ℚ), ∃ out,
      LGBModel.predict m' r raw = .ok (PredOut.labels out) ∧
      ∀ o ∈ out, ∃ c, o = some c ∧ c ∈ m'.classes) := by
  obtain ⟨p1, hf, hr, hm, he, _⟩ := fit_ok_elim hfit
  subst hm
  subst he
  have hcls' : CLASSIFIER_OBJECTIVES.contains (strOr p1.objective "regression") = true := hcls
  have hmem : strOr p1.objective "regression" ∈ CLASSIFIER_OBJECTIVES := by
    simpa using hcls'
  have h2 : ¬(strOr p1.objective "regression" = "multiclass" ∨
      strOr p1.objective "regression" = "multiclassova") →
      2 ≤ (sortedClasses y).length := by
    intro hnm
    apply hbin
    have hmem' := hmem
    simp only [CLASSIFIER_OBJECTIVES, List.mem_cons, List.not_mem_nil, or_false] at hmem'
    rcases hmem' with h | h | h | h
    · exact Or.inl h
    · exact absurd (Or.inl h) hnm
    · exact absurd (Or.inr h) hnm
    · exact Or.inr h
  refine ⟨by simp [hmem], ?_, ?_, by simp [hmem], by simp [hmem], ?_⟩
  · simpa [hmem] using sortedClasses_sorted y
  · intro v
    simpa [hmem] using (sortedClasses_mem (y := y) (v := v))
  · intro r raw
    refine ⟨decodeCls (strOr p1.objective "regression") (sortedClasses y)
      ((sortedClasses y).length) r raw, ?_, ?_⟩
    · simp [LGBModel.predict, ensureFitted, hf, predictDecode, hmem]
    · have hgoal := decodeCls_mem (strOr p1.objective "regression") (sortedClasses y)
        ((sortedClasses y).length) r raw rfl (sortedClasses_length_pos hy) h2
      simpa [hmem] using hgoal

/-- C1 witness: the spec's own example -- fitting on `y = [3,3,7,7]`
under the binary objective stores classes `[3, 7]`, and predictions on
concrete raw engine output stay inside that class list. -/
theorem c1_classes_and_predict_witness :
    ∃ out, LGBModel.predict
        ⟨some 1, false, true, ⟨some "binary", none, some 1, none⟩, 2, [3, 7]⟩ 2
        [(1 : ℚ)/4, (3 : ℚ)/4] = .ok (PredOut.labels out) ∧
      ∀ o ∈ out, ∃ c, o = some c ∧ c ∈
        (⟨some 1, false, true, ⟨some "binary", none, some 1, none⟩, 2, [3, 7]⟩ :
          LGBModel).classes :=
  (c1_classes_and_predict ⟨none, false, false, ⟨some "binary", none, some 1, none⟩, 0, []⟩
    ⟨0, 1, fun _ => false⟩ 4 [3, 3, 7, 7]
    ⟨some 1, false, true, ⟨some "binary", none, some 1, none⟩, 2, [3, 7]⟩
    [Ev.createDataset 0, Ev.setLabel [0, 0, 1, 1], Ev.createBooster 1, Ev.updateCall 0,
      Ev.disposeDataset 0]
    rfl rfl (by decide) (fun _ => by decide)).2.2.2.2.2 2 [(1 : ℚ)/4, (3 : ℚ)/4]

/-- C6: the decode of `predict` -- `binary` and `cross_entropy`
threshold each row's raw probability at 0.5 selecting class index 0
or 1; `multiclass` and `multiclassova` select the index of the row
maximum with ties broken by the lowest index (first-seen-wins), mapped
through the class list; any non-classification objective returns the
raw engine output unchanged. -/
theorem c6_predict_decode (obj : String) (classes : List Int) (nc rows : Nat)
    (raw : List ℚ) (i : Nat) :
    ((obj = "binary" ∨ obj = "cross_entropy") → i < rows →
      ∃ out, predictDecode obj classes nc rows raw = .labels out ∧
        out[i]? = some (classes.get? (if (1 : ℚ)/2 < raw.getD i 0 then 1 else 0))) ∧
    ((obj = "multiclass" ∨ obj = "multiclassova") → 1 ≤ nc → i < rows →
      ∃ out b, predictDecode obj classes nc rows raw = .labels out ∧
        out[i]? = some (classes.get? b) ∧ FirstMaxIndex raw (i * nc) nc b) ∧
    (CLASSIFIER_OBJECTIVES.contains obj = false →
      predictDecode obj classes nc rows raw = PredOut.raw raw) := by
  refine ⟨?_, ?_, ?_⟩
  · rintro (rfl | rfl) hi
    · refine ⟨_, rfl, ?_⟩
      simp [decodeCls, List.getElem?_map, List.getElem?_range hi]
    · refine ⟨_, rfl, ?_⟩
      simp [decodeCls, List.getElem?_map, List.getElem?_range hi]
  · rintro (rfl | rfl) hnc hi
    · refine ⟨_, argmaxRow raw (i * nc) nc, rfl, ?_,
        argmaxRow_firstMax raw (i * nc) nc hnc⟩
      simp [decodeCls, List.getElem?_map, List.getElem?_range hi]
    · refine ⟨_, argmaxRow raw (i * nc) nc, rfl, ?_,
        argmaxRow_firstMax raw (i * nc) nc hnc⟩
      simp [decodeCls, List.getElem?_map, List.getElem?_range hi]
  · intro hno
    have hno' : obj ∉ CLASSIFIER_OBJECTIVES := by simpa using hno
    simp [predictDecode, hno']

/-- C6 witness: a concrete multiclass decode with a tie in the raw row
probabilities, resolved to the first-seen maximum. -/
theorem c6_predict_decode_witness :
    ∃ out b, predictDecode "multiclass" [3, 7, 9] 3 1 [(1 : ℚ)/2, 2, 2] =
        PredOut.labels out ∧
      out[0]? = some ([(3 : Int), 7, 9].get? b) ∧
      FirstMaxIndex [(1 : ℚ)/2, 2, 2] (0 * 3) 3 b :=
  (c6_predict_decode "multiclass" [3, 7, 9] 3 1 [(1 : ℚ)/2, 2, 2] 0).2.1
    (Or.inl rfl) (by decide) (by decide)

/-- C7: on a disposed model, `predict`, `predictProba`, `score` and
`save` all fail with the disposed error (the disposed check takes
precedence); on a non-disposed but never-fitted model they all fail
with the not-fitted error. -/
theorem c7_lifecycle_errors (m : LGBModel) (rows : Nat) (raw : List ℚ) (y : List ℚ) :
    (m.freed = true →
      LGBModel.predict m rows raw = .error Err.disposed ∧
      LGBModel.predictProba m rows raw = .error Err.disposed ∧
      LGBModel.score m rows raw y = .error Err.disposed ∧
      LGBModel.save m = .error Err.disposed) ∧
    (m.freed = false → m.fitted = false →
      LGBModel.predict m rows raw = .error Err.notFitted ∧
      LGBModel.predictProba m rows raw = .error Err.notFitted ∧
      LGBModel.score m rows raw y = .error Err.notFitted ∧
      LGBModel.save m = .error Err.notFitted) := by
  constructor
  · intro hfreed
    have he : ensureFitted m = .error Err.disposed := by
      simp [ensureFitted, hfreed]
    refine ⟨?_, ?_, ?_, ?_⟩ <;>
      simp [LGBModel.predict, LGBModel.predictProba, LGBModel.score, LGBModel.save, he]
  · intro hfreed hfitted
    have he : ensureFitted m = .error Err.notFitted := by
      simp [ensureFitted, hfreed, hfitted]
    refine ⟨?_, ?_, ?_, ?_⟩ <;>
      simp [LGBModel.predict, LGBModel.predictProba, LGBModel.score, LGBModel.save, he]

/-- C7 witness: a concrete disposed model and a concrete unfitted
model hit the two error classes on all four operations. -/
theorem c7_lifecycle_errors_witness :
    (LGBModel.predict ⟨none, true, false, ⟨none, none, none, none⟩, 0, []⟩ 1 [0] =
        .error Err.disposed ∧
      LGBModel.predictProba ⟨none, true, false, ⟨none, none, none, none⟩, 0, []⟩ 1 [0] =
        .error Err.disposed ∧
      LGBModel.score ⟨none, true, false, ⟨none, none, none, none⟩, 0, []⟩ 1 [0] [0] =
        .error Err.disposed ∧
      LGBModel.save ⟨none, true, false, ⟨none, none, none, none⟩, 0, []⟩ =
        .error Err.disposed) ∧
    (LGBModel.predict ⟨none, false, false, ⟨none, none, none, none⟩, 0, []⟩ 1 [0] =
        .error Err.notFitted ∧
      LGBModel.predictProba ⟨none, false, false, ⟨none, none, none, none⟩, 0, []⟩ 1 [0] =
        .error Err.notFitted ∧
      LGBModel.score ⟨none, false, false, ⟨none, none, none, none⟩, 0, []⟩ 1 [0] [0] =
        .error Err.notFitted ∧
      LGBModel.save ⟨none, false, false, ⟨none, none, none, none⟩, 0, []⟩ =
        .error Err.notFitted) :=
  ⟨(c7_lifecycle_errors ⟨none, true, false, ⟨none, none, none, none⟩, 0, []⟩ 1 [0] [0]).1 rfl,
    (c7_lifecycle_errors ⟨none, false, false, ⟨none, none, none, none⟩, 0, []⟩ 1 [0] [0]).2
      rfl rfl⟩

/-- C8: on a fitted, non-disposed model, `predictProba` fails with the
objective-mismatch error exactly when the objective is not one of the
probability-emitting classification objectives; in particular it always
fails on a regression-objective model. -/
theorem c8_predictProba_mismatch (m : LGBModel) (rows : Nat) (raw : List ℚ)
    (hfree : m.freed = false) (hfitted : m.fitted = true) :
    (PROBA_OBJECTIVES.contains (strOr m.params.objective "regression") = false →
      LGBModel.predictProba m rows raw =
        .error (Err.probaMismatch (strOr m.params.objective "regression"))) ∧
    (PROBA_OBJECTIVES.contains (strOr m.params.objective "regression") = true →
      ∀ s : String, LGBModel.predictProba m rows raw ≠ .error (Err.probaMismatch s)) ∧
    (strOr m.params.objective "regression" = "regression" →
      LGBModel.predictProba m rows raw = .error (Err.probaMismatch "regression")) := by
  have he : ensureFitted m = .ok () := by
    simp [ensureFitted, hfree, hfitted]
  refine ⟨?_, ?_, ?_⟩
  · intro hno
    have hno' : strOr m.params.objective "regression" ∉ PROBA_OBJECTIVES := by
      simpa using hno
    simp [LGBModel.predictProba, he, hno']
  · intro hyes s
    simp only [LGBModel.predictProba, he]
    rw [if_neg (not_not_intro hyes)]
    split <;> simp
  · intro hreg
    have hno' : strOr m.params.objective "regression" ∉ PROBA_OBJECTIVES := by
      rw [hreg]; decide
    have h1 : LGBModel.predictProba m rows raw =
        .error (Err.probaMismatch (strOr m.params.objective "regression")) := by
      simp [LGBModel.predictProba, he, hno']
    rw [hreg] at h1
    exact h1

/-- C8 witness: a fitted model with no explicit objective (so the
`regression` default) rejects `predictProba` with the mismatch error. -/
theorem c8_predictProba_mismatch_witness :
    LGBModel.predictProba ⟨some 1, false, true, ⟨none, none, none, none⟩, 0, []⟩ 1 [0] =
      .error (Err.probaMismatch "regression") :=
  (c8_predictProba_mismatch ⟨some 1, false, true, ⟨none, none, none, none⟩, 0, []⟩ 1 [0]
    rfl rfl).2.2 rfl

theorem loadLGB_resolved {s : LoaderState} {w : Nat} (p : Nat)
    (hw : s.wasmModule = some w) : loadLGB s p = (s, .resolved w) := by
  unfold loadLGB
  rw [hw]

theorem loadLGB_pending_inflight {s : LoaderState} {q : Nat} (p : Nat)
    (hw : s.wasmModule = none) (hl : s.loading = some q) :
    loadLGB s p = (s, .pending q) := by
  unfold loadLGB
  rw [hw, hl]

theorem loadLGB_pending_fresh {s : LoaderState} (p : Nat)
    (hw : s.wasmModule = none) (hl : s.loading = none) :
    loadLGB s p = ({ s with loading := some p }, .pending p) := by
  unfold loadLGB
  rw [hw, hl]

theorem completeLoad_effective {s : LoaderState} {q : Nat} (i : Nat)
    (hl : s.loading = some q) (hw : s.wasmModule = none) :
    completeLoad s i = ({ s with wasmModule := some i }, true) := by
  unfold completeLoad
  rw [hl, hw]

theorem completeLoad_noop_notStarted {s : LoaderState} (i : Nat)
    (hl : s.loading = none) : completeLoad s i = (s, false) := by
  unfold completeLoad
  rw [hl]

theorem completeLoad_noop_done {s : LoaderState} {w : Nat} (i : Nat)
    (hw : s.wasmModule = some w) : completeLoad s i = (s, false) := by
  unfold completeLoad
  rcases hl : s.loading with _ | q <;> rw [hw]

theorem loaderInv_step (a : RunAcc) (e : LStep) (h : LoaderInv a) :
    LoaderInv (runStep a e) := by
  obtain ⟨h1, h2, h3⟩ := h
  cases e with
  | call p =>
    cases hw : a.st.wasmModule with
    | some w =>
      simp only [runStep]
      rw [loadLGB_resolved p hw]
      refine ⟨?_, ?_, ?_⟩
      · intro hnone
        exact h1 hnone
      · intro w' hw'
        exact h2 w' hw'
      · intro r hr
        simp only [List.mem_append, List.mem_singleton] at hr
        rcases hr with hr | rfl
        · exact h3 r hr
        · constructor
          · intro w' hw'
            cases hw'
            exact hw
          · intro p' hp'
            cases hp'
    | none =>
      cases hl : a.st.loading with
      | some q =>
        simp only [runStep]
        rw [loadLGB_pending_inflight p hw hl]
        refine ⟨fun _ => h1 hw, ?_, ?_⟩
        · intro w' hw'
          rw [hw] at hw'
          cases hw'
        · intro r hr
          simp only [List.mem_append, List.mem_singleton] at hr
          rcases hr with hr | rfl
          · exact h3 r hr
          · constructor
            · intro w' hw'
              cases hw'
            · intro p' hp'
              cases hp'
              exact hl
      | none =>
        simp only [runStep]
        rw [loadLGB_pending_fresh p hw hl]
        refine ⟨fun _ => h1 hw, ?_, ?_⟩
        · intro w' hw'
          rw [hw] at hw'
          cases hw'
        · intro r hr
          simp only [List.mem_append, List.mem_singleton] at hr
          rcases hr with hr | rfl
          · refine ⟨fun w' hw' => ?_, fun p' hp' => ?_⟩
            · rw [(h3 r hr).1 w' hw'] at hw
              cases hw
            · have := (h3 r hr).2 p' hp'
              rw [hl] at this
              cases this
          · refine ⟨fun w' hw' => ?_, fun p' hp' => ?_⟩
            · cases hw'
            · cases hp'
              rfl
  | complete i =>
    cases hw : a.st.wasmModule with
    | some w =>
      simp only [runStep]
      rw [completeLoad_noop_done i hw]
      exact ⟨h1, h2, h3⟩
    | none =>
      cases hl : a.st.loading with
      | none =>
        simp only [runStep]
        rw [completeLoad_noop_notStarted i hl]
        exact ⟨h1, h2, h3⟩
      | some q =>
        simp only [runStep]
        rw [completeLoad_effective i hl hw]
        refine ⟨?_, ?_, ?_⟩
        · intro hnone
          cases hnone
        · intro w' hw'
          cases hw'
          simp [h1 hw]
        · intro r hr
          refine ⟨fun w' hw' => ?_, fun p' hp' => ?_⟩
          · rw [(h3 r hr).1 w' hw'] at hw
            cases hw
          · exact (h3 r hr).2 p' hp'

theorem loaderInv_runLoader (steps : List LStep) : LoaderInv (runLoader steps) := by
  have hrun : ∀ (l : List LStep) (a : RunAcc), LoaderInv a → LoaderInv (l.foldl runStep a) := by
    intro l
    induction l with
    | nil => intro a h; exact h
    | cons e rest ih => intro a h; exact ih _ (loaderInv_step a e h)
  refine hrun steps _ ⟨fun _ => rfl, ?_, ?_⟩
  · intro w hw
    cases hw
  · intro r hr
    cases hr

/-- C4: the module loader performs at most one engine initialization
per process -- the created-instance list of any interleaving of
`loadLGB()` calls and initialization completion has length at most
one -- every `loadLGB()` call resolves to the same instance stored in
`wasmModule`, and `getWasm` fails with the not-loaded error exactly
when no initialization has completed. -/
theorem c4_loader_singleton (steps : List LStep) :
    (runLoader steps).created.length ≤ 1 ∧
    (∀ r ∈ (runLoader steps).results,
      finalValue (runLoader steps).st r = (runLoader steps).st.wasmModule) ∧
    (getWasm (runLoader steps).st = .error Err.notLoaded ↔
      (runLoader steps).created = []) := by
  obtain ⟨h1, h2, h3⟩ := loaderInv_runLoader steps
  refine ⟨?_, ?_, ?_⟩
  · cases hw : (runLoader steps).st.wasmModule with
    | none => rw [h1 hw]; simp
    | some w =>
      rw [h2 w hw]
      simp
  · intro r hr
    obtain ⟨hres, hpend⟩ := h3 r hr
    cases r with
    | resolved w =>
      rw [hres w rfl]
      rfl
    | pending p =>
      have hl := hpend p rfl
      simp [finalValue, hl]
  · constructor
    · intro hg
      cases hw : (runLoader steps).st.wasmModule with
      | none => exact h1 hw
      | some w => simp [getWasm, hw] at hg
    · intro hc
      cases hw : (runLoader steps).st.wasmModule with
      | none => simp [getWasm, hw]
      | some w =>
        rw [h2 w hw] at hc
        cases hc

/-- C4 witness: two calls racing before completion, then the
initialization finishing with instance 42, then a late call -- all
results resolve to instance 42 and exactly one instance was created. -/
theorem c4_loader_singleton_witness :
    (runLoader [LStep.call 0, LStep.call 1, LStep.complete 42, LStep.call 2]).created.length ≤ 1 ∧
    (∀ r ∈ (runLoader [LStep.call 0, LStep.call 1, LStep.complete 42, LStep.call 2]).results,
      finalValue (runLoader [LStep.call 0, LStep.call 1, LStep.complete 42, LStep.call 2]).st r =
        (runLoader [LStep.call 0, LStep.call 1, LStep.complete 42, LStep.call 2]).st.wasmModule) ∧
    (getWasm (runLoader [LStep.call 0, LStep.call 1, LStep.complete 42, LStep.call 2]).st =
        .error Err.notLoaded ↔
      (runLoader [LStep.call 0, LStep.call 1, LStep.complete 42, LStep.call 2]).created = []) :=
  c4_loader_singleton [LStep.call 0, LStep.call 1, LStep.complete 42, LStep.call 2]

/-- C5: every operation that allocates scratch sandbox buffers --
`Dataset` construction, `setLabel`, `Booster` construction, `update`,
`getNumClasses`, `predict`, `saveModel`, `loadModel`, and C-string
marshaling -- replays without allocation faults and leaves the live
scratch-allocation set empty on every exit path, for success and for
every engine-failure status. -/
theorem c5_scratch_release :
    ScratchSafe withCStringEvs ∧
    (∀ ok : Bool, ScratchSafe (datasetCreateEvs ok)) ∧
    (∀ ok : Bool, ScratchSafe (setLabelEvs ok)) ∧
    (∀ ok : Bool, ScratchSafe (boosterCreateEvs ok)) ∧
    (∀ ok : Bool, ScratchSafe (updateEvs ok)) ∧
    (∀ ok : Bool, ScratchSafe (getNumClassesEvs ok)) ∧
    (∀ ok : Bool, ScratchSafe (boosterPredictEvs ok)) ∧
    (∀ ok1 ok2 : Bool, ScratchSafe (saveModelEvs ok1 ok2)) ∧
    (∀ ok : Bool, ScratchSafe (loadModelEvs ok)) := by
  refine ⟨rfl, ?_, ?_, ?_, ?_, ?_, ?_, ?_, ?_⟩
  · intro ok
    cases ok <;> rfl
  · intro ok
    cases ok <;> rfl
  · intro ok
    cases ok <;> rfl
  · intro ok
    cases ok <;> rfl
  · intro ok
    cases ok <;> rfl
  · intro ok
    cases ok <;> rfl
  · intro ok1 ok2
    cases ok1 <;> cases ok2 <;> rfl
  · intro ok
    cases ok <;> rfl

end LightGBMWasm
